import Mathlib

/-!
# Verification of the pwasm-abi core (legacy ABI codec and dispatch table)

Shallow embedding of the repository's Rust sources:

* `src/legacy/decode.rs` — the legacy (Ethereum) ABI decoder (`slice_data`,
  `pad_u32`, `pad_i32`, `as_u32`, `as_i32`, `as_u64`, `as_i64`, `as_bool`,
  `peek`, `take_bytes`, `decode_param`, `decode`);
* `src/eth/value_type.rs` — the `ValueType` sum type and its conversions;
* `src/eth/dispatch.rs` — `HashSignature`, `NamedSignature`, `Table` and
  its `dispatch` / `hash_signature` operations.

Bytes are modelled as `Nat` (values < 256 by construction), 32-byte words as
`List Nat` of length 32, Rust `Result<T, Error>` (with the unit-like
`Error` struct of decode.rs) as `Except Unit T`.  Machine integers are
modelled as `Nat` / `Int` with explicit two's-complement wrapping where the
source relies on it.
-/

/-- ParamType of the eth module (declared in eth/mod.rs, used throughout
src/legacy/decode.rs and src/eth/dispatch.rs). -/
inductive ParamType where
  | U32
  | I32
  | U64
  | I64
  | U256
  | H256
  | Address
  | Bool
  | Bytes
  | String
  | Array (inner : ParamType)
deriving DecidableEq, Repr

/-- ValueType from src/eth/value_type.rs.  The Rust `String` payload is
modelled by its UTF-8 byte sequence, `[u8; 32]` / `[u8; 20]` payloads by
byte lists. -/
inductive ValueType where
  | U32 (v : Nat)
  | U64 (v : Nat)
  | I32 (v : Int)
  | I64 (v : Int)
  | Address (v : List Nat)
  | U256 (v : List Nat)
  | H256 (v : List Nat)
  | Bytes (v : List Nat)
  | Array (v : List ValueType)
  | Bool (v : Bool)
  | String (v : List Nat)
deriving Repr

/-- A 32-byte word (`type Hash = [u8; 32]` in decode.rs). -/
abbrev Word := List Nat

/-- Byte indexing into a word, `slice[i]` in the source (all source
accesses are within the fixed 32-byte bound). -/
def wbyte (w : Word) (i : Nat) : Nat := w.getD i 0

/-- slice_data from decode.rs: rejects data whose length is not a multiple
of 32, otherwise cuts it into 32-byte slices. -/
def slice_data (data : List Nat) : Except Unit (List Word) :=
  if data.length % 32 ≠ 0 then .error ()
  else .ok ((List.range (data.length / 32)).map fun i => (data.drop (32 * i)).take 32)

/-- pad_u32 from decode.rs: a u32 as a right-aligned 32-byte word. -/
def pad_u32 (value : Nat) : Word :=
  List.replicate 28 0 ++
    [(value >>> 24) % 256, (value >>> 16) % 256, (value >>> 8) % 256, value % 256]

/-- pad_i32 from decode.rs: an i32 as a right-aligned 32-byte word,
0xFF-padded when negative.  The byte writes `(value >> k) as u8` on a
negative i32 coincide with the bytes of the two's-complement image
`value + 2^32`. -/
def pad_i32 (value : Int) : Word :=
  if 0 ≤ value then pad_u32 value.toNat
  else
    let u : Nat := (value + 2 ^ 32).toNat
    List.replicate 28 0xff ++
      [(u >>> 24) % 256, (u >>> 16) % 256, (u >>> 8) % 256, u % 256]

/-- as_u32 from decode.rs. -/
def as_u32 (slice : Word) : Except Unit Nat :=
  if ¬ ((slice.take 28).all fun x => x = 0) then .error ()
  else .ok ((wbyte slice 28) <<< 24 + (wbyte slice 29) <<< 16 +
            (wbyte slice 30) <<< 8 + wbyte slice 31)

/-- Reinterpretation of a u32 bit pattern as an i32 (`result as i32`). -/
def u32_as_i32 (u : Nat) : Int :=
  if u < 2 ^ 31 then (u : Int) else (u : Int) - 2 ^ 32

/-- Reinterpretation of a u64 bit pattern as an i64 (`result as i64`). -/
def u64_as_i64 (u : Nat) : Int :=
  if u < 2 ^ 63 then (u : Int) else (u : Int) - 2 ^ 64

/-- Two's-complement wrap into the i32 range (Rust release-mode unary
negation semantics at the i32::MIN edge). -/
def wrap_i32 (z : Int) : Int := (z + 2 ^ 31) % 2 ^ 32 - 2 ^ 31

/-- Two's-complement wrap into the i64 range. -/
def wrap_i64 (z : Int) : Int := (z + 2 ^ 63) % 2 ^ 64 - 2 ^ 63

/-- as_i32 from decode.rs.  Note: the negative branch checks bytes 1..28
for 0xFF, reads the low four bytes big-endian, reinterprets them as an i32
and returns the NEGATION of that reinterpretation. -/
def as_i32 (slice : Word) : Except Unit Int :=
  let is_negative := wbyte slice 0 &&& 0x80 ≠ 0
  if ¬ is_negative then
    match as_u32 slice with
    | .error e => .error e
    | .ok r => .ok (u32_as_i32 r)
  else
    if ¬ (((slice.drop 1).take 27).all fun x => x = 0xff) then .error ()
    else
      let result := (wbyte slice 28) <<< 24 + (wbyte slice 29) <<< 16 +
                    (wbyte slice 30) <<< 8 + wbyte slice 31
      .ok (wrap_i32 (-(u32_as_i32 result)))

/-- as_u64 from decode.rs. -/
def as_u64 (slice : Word) : Except Unit Nat :=
  if ¬ ((slice.take 24).all fun x => x = 0) then .error ()
  else .ok ((wbyte slice 24) <<< 56 + (wbyte slice 25) <<< 48 +
            (wbyte slice 26) <<< 40 + (wbyte slice 27) <<< 32 +
            (wbyte slice 28) <<< 24 + (wbyte slice 29) <<< 16 +
            (wbyte slice 30) <<< 8 + wbyte slice 31)

/-- as_i64 from decode.rs.  As in `as_i32`, the negative branch checks
bytes 1..28 for 0xFF, reads the low eight bytes big-endian, reinterprets
them as an i64 and returns the NEGATION of that reinterpretation. -/
def as_i64 (slice : Word) : Except Unit Int :=
  let is_negative := wbyte slice 0 &&& 0x80 ≠ 0
  if ¬ is_negative then
    match as_u64 slice with
    | .error e => .error e
    | .ok r => .ok (u64_as_i64 r)
  else
    if ¬ (((slice.drop 1).take 27).all fun x => x = 0xff) then .error ()
    else
      let result := (wbyte slice 24) <<< 56 + (wbyte slice 25) <<< 48 +
                    (wbyte slice 26) <<< 40 + (wbyte slice 27) <<< 32 +
                    (wbyte slice 28) <<< 24 + (wbyte slice 29) <<< 16 +
                    (wbyte slice 30) <<< 8 + wbyte slice 31
      .ok (wrap_i64 (-(u64_as_i64 result)))

/-- as_bool from decode.rs: errors unless bytes 0..31 are zero, then
returns whether the last byte equals 1. -/
def as_bool (slice : Word) : Except Unit Bool :=
  if ¬ ((slice.take 31).all fun x => x = 0) then .error ()
  else .ok (wbyte slice 31 = 1)

/-- peek from decode.rs. -/
def peek (slices : List Word) (position : Nat) : Except Unit Word :=
  match slices.get? position with
  | some s => .ok s
  | none => .error ()

structure BytesTaken where
  bytes : List Nat
  new_offset : Nat

/-- The loop of take_bytes collecting `slices_len` consecutive slices
starting at `position` (each must exist). -/
def collect_slices (slices : List Word) (position : Nat) : Nat → Except Unit (List Word)
  | 0 => .ok []
  | n + 1 => do
    let s ← peek slices position
    let rest ← collect_slices slices (position + 1) n
    .ok (s :: rest)

/-- take_bytes from decode.rs. -/
def take_bytes (slices : List Word) (position len : Nat) : Except Unit BytesTaken := do
  let slices_len := (len + 31) / 32
  let bytes_slices ← collect_slices slices position slices_len
  .ok { bytes := bytes_slices.flatten.take len, new_offset := position + slices_len }

/-- Continuation-byte test of UTF-8 validation. -/
def utf8cont (b : Nat) : Bool := 0x80 ≤ b && b ≤ 0xBF

/-- Modelled from the spec: Rust's `String::from_utf8` validity check
(§3 "String values hold well-formed UTF-8"); the standard-library
implementation is external to the repository.  Standard UTF-8 acceptance:
overlong forms and surrogates rejected. -/
def utf8_ok : List Nat → Bool
  | [] => true
  | b :: rest =>
    if b ≤ 0x7F then utf8_ok rest
    else if b < 0xC2 then false
    else if b ≤ 0xDF then
      match rest with
      | c :: rest2 => utf8cont c && utf8_ok rest2
      | [] => false
    else if b ≤ 0xEF then
      match rest with
      | c :: d :: rest3 =>
        (if b = 0xE0 then decide (0xA0 ≤ c && c ≤ 0xBF : Bool)
         else if b = 0xED then decide (0x80 ≤ c && c ≤ 0x9F : Bool)
         else utf8cont c) && utf8cont d && utf8_ok rest3
      | _ => false
    else if b ≤ 0xF4 then
      match rest with
      | c :: d :: e :: rest4 =>
        (if b = 0xF0 then decide (0x90 ≤ c && c ≤ 0xBF : Bool)
         else if b = 0xF4 then decide (0x80 ≤ c && c ≤ 0x8F : Bool)
         else utf8cont c) && utf8cont d && utf8cont e && utf8_ok rest4
      | _ => false
    else false

structure DecodeResult where
  token : ValueType
  new_offset : Nat

/-- The element loop of the `ParamType::Array` arm of decode_param,
abstracted over the decoder for the inner type: decode `n` elements in
sequence, threading the offset. -/
def decode_elems_with (f : List Word → Nat → Except Unit DecodeResult)
    (slices : List Word) (offset : Nat) :
    Nat → Except Unit (List ValueType × Nat) :=
  fun n =>
    match n with
    | 0 => .ok ([], offset)
    | n + 1 => do
      let r ← f slices offset
      let rest ← decode_elems_with f slices r.new_offset n
      .ok (r.token :: rest.1, rest.2)

/-- decode_param from decode.rs.  Note the `ParamType::H256` arm constructs
`ValueType::U256`, exactly as the source does. -/
def decode_param (param : ParamType) (slices : List Word) (offset : Nat) :
    Except Unit DecodeResult :=
  match param with
  | .Address => do
    let slice ← peek slices offset
    .ok { token := .Address (slice.drop 12), new_offset := offset + 1 }
  | .U32 => do
    let slice ← peek slices offset
    let v ← as_u32 slice
    .ok { token := .U32 v, new_offset := offset + 1 }
  | .U64 => do
    let slice ← peek slices offset
    let v ← as_u64 slice
    .ok { token := .U64 v, new_offset := offset + 1 }
  | .I32 => do
    let slice ← peek slices offset
    let v ← as_i32 slice
    .ok { token := .I32 v, new_offset := offset + 1 }
  | .I64 => do
    let slice ← peek slices offset
    let v ← as_i64 slice
    .ok { token := .I64 v, new_offset := offset + 1 }
  | .U256 => do
    let slice ← peek slices offset
    .ok { token := .U256 slice, new_offset := offset + 1 }
  | .H256 => do
    let slice ← peek slices offset
    .ok { token := .U256 slice, new_offset := offset + 1 }
  | .Bool => do
    let slice ← peek slices offset
    let b ← as_bool slice
    .ok { token := .Bool b, new_offset := offset + 1 }
  | .Bytes => do
    let offset_slice ← peek slices offset
    let lo ← as_u32 offset_slice
    let len_offset := lo / 32
    let len_slice ← peek slices len_offset
    let len ← as_u32 len_slice
    let taken ← take_bytes slices (len_offset + 1) len
    .ok { token := .Bytes taken.bytes, new_offset := offset + 1 }
  | .String => do
    let offset_slice ← peek slices offset
    let lo ← as_u32 offset_slice
    let len_offset := lo / 32
    let len_slice ← peek slices len_offset
    let len ← as_u32 len_slice
    let taken ← take_bytes slices (len_offset + 1) len
    if utf8_ok taken.bytes then
      .ok { token := .String taken.bytes, new_offset := offset + 1 }
    else .error ()
  | .Array t => do
    let offset_slice ← peek slices offset
    let lo ← as_u32 offset_slice
    let len_offset := lo / 32
    let len_slice ← peek slices len_offset
    let len ← as_u32 len_slice
    let r ← decode_elems_with (decode_param t) slices (len_offset + 1) len
    .ok { token := .Array r.1, new_offset := offset + 1 }

/-- The token-accumulating loop of decode from decode.rs. -/
def decode_loop : List ParamType → List Word → Nat → Except Unit (List ValueType)
  | [], _, _ => .ok []
  | p :: ps, slices, offset => do
    let r ← decode_param p slices offset
    let rest ← decode_loop ps slices r.new_offset
    .ok (r.token :: rest)

/-- decode from decode.rs: slice the data, then decode each ParamType in
order, threading the head offset. -/
def decode (types : List ParamType) (data : List Nat) : Except Unit (List ValueType) := do
  let slices ← slice_data data
  decode_loop types slices 0

/-! ## Value conversions (src/eth/value_type.rs)

The native 256-bit unsigned integer type `U256` of the bigint crate is
modelled by its 32 big-endian bytes, which is exactly what the
`From` conversions between `U256` and `[u8; 32]` shuttle around. -/

/-- From u32 for ValueType (value_type.rs). -/
def valueTypeOfU32 (val : Nat) : ValueType := .U32 val

/-- From U256 for ValueType (value_type.rs): constructs the `H256`
variant. -/
def valueTypeOfU256 (val : List Nat) : ValueType := .H256 val

/-- From H256 for ValueType (value_type.rs): constructs the `H256`
variant. -/
def valueTypeOfH256 (val : List Nat) : ValueType := .H256 val

/-- From ValueType for U256 (value_type.rs): matches only the `U256`
variant and panics on every other variant; the panic is modelled as
`none`. -/
def u256OfValueType : ValueType → Option (List Nat)
  | .U256 v => some v
  | _ => none

/-- From ValueType for H256 (value_type.rs): matches only the `H256`
variant, panics otherwise. -/
def h256OfValueType : ValueType → Option (List Nat)
  | .H256 v => some v
  | _ => none

/-! ## Encoder

`src/legacy/encode.rs` is not present under `src/`; the encoder is
modelled from the spec (§4.1 scalar word encodings, §4.3 head/tail
algorithm).  The scalar paddings `pad_u32` / `pad_i32` do appear in the
source (decode.rs) and are reused.  The mutual recursion over the nested
value tree is driven by a fuel argument that strictly decreases on every
call; `encode` supplies fuel exceeding the recursion depth of any input,
so the fuel never runs out. -/

/-- Whether a value is of dynamic type (Bytes, String, Array), §4.1. -/
def is_dynamic : ValueType → Bool
  | .Bytes _ => true
  | .String _ => true
  | .Array _ => true
  | _ => false

/-- Modelled from the spec: a u64 as a right-aligned 32-byte word
(§4.1, analogous to pad_u32 of decode.rs). -/
def pad_u64 (value : Nat) : Word :=
  List.replicate 24 0 ++
    [(value >>> 56) % 256, (value >>> 48) % 256, (value >>> 40) % 256,
     (value >>> 32) % 256, (value >>> 24) % 256, (value >>> 16) % 256,
     (value >>> 8) % 256, value % 256]

/-- Modelled from the spec: an i64 as a right-aligned 32-byte word,
0xFF-padded when negative (§4.1, analogous to pad_i32 of decode.rs). -/
def pad_i64 (value : Int) : Word :=
  if 0 ≤ value then pad_u64 value.toNat
  else
    let u : Nat := (value + 2 ^ 64).toNat
    List.replicate 24 0xff ++
      [(u >>> 56) % 256, (u >>> 48) % 256, (u >>> 40) % 256,
       (u >>> 32) % 256, (u >>> 24) % 256, (u >>> 16) % 256,
       (u >>> 8) % 256, u % 256]

/-- Right-zero padding of a dynamic payload to a whole number of
32-byte words (§4.1). -/
def pad_right32 (b : List Nat) : List Nat :=
  b ++ List.replicate ((32 - b.length % 32) % 32) 0

/-- Modelled from the spec: the single head word of a static value
(§4.1 scalar word encodings).  Dynamic variants never reach this
function (the encoder asks `is_dynamic` first). -/
def static_word : ValueType → List Nat
  | .U32 v => pad_u32 v
  | .I32 v => pad_i32 v
  | .U64 v => pad_u64 v
  | .I64 v => pad_i64 v
  | .U256 v => v
  | .H256 v => v
  | .Address v => List.replicate 12 0 ++ v
  | .Bool b => List.replicate 31 0 ++ [if b then 1 else 0]
  | _ => []

mutual

/-- Modelled from the spec: the tail record of a dynamic value — one
`len` word followed by the padded payload, recursively head/tail-laid-out
for Arrays (§4.1, §4.3). -/
def tail_record : Nat → ValueType → List Nat
  | _, .Bytes b => pad_u32 b.length ++ pad_right32 b
  | _, .String s => pad_u32 s.length ++ pad_right32 s
  | fuel + 1, .Array elems => pad_u32 elems.length ++ encode_body fuel elems
  | _, _ => []

/-- Modelled from the spec: head/tail layout of a value list — head in
order, tails appended in order, head then tail (§4.3). -/
def encode_body : Nat → List ValueType → List Nat
  | fuel + 1, vs =>
    match enc_loop fuel vs.length vs [] with
    | (h, t) => h ++ t
  | 0, _ => []

/-- Modelled from the spec: the head/tail building loop of §4.3.  For a
dynamic parameter the head word is the byte offset
`(head_words + tail_words_so_far) * 32`; for a static parameter it is
the scalar word. -/
def enc_loop : Nat → Nat → List ValueType → List Nat → List Nat × List Nat
  | _, _, [], tail => ([], tail)
  | fuel + 1, hw, v :: vs, tail =>
    if is_dynamic v then
      match enc_loop fuel hw vs (tail ++ tail_record fuel v) with
      | (h, t) => (pad_u32 (hw * 32 + tail.length) ++ h, t)
    else
      match enc_loop fuel hw vs tail with
      | (h, t) => (static_word v ++ h, t)
  | 0, _, _ :: _, tail => ([], tail)

end

mutual

/-- Node count of a value tree, used only to seed the encoder's fuel. -/
def vt_size : ValueType → Nat
  | .Array vs => 1 + vtl_size vs
  | _ => 1

/-- Node count of a value list, used only to seed the encoder's fuel. -/
def vtl_size : List ValueType → Nat
  | [] => 1
  | v :: vs => 1 + vt_size v + vtl_size vs

end

/-- Modelled from the spec: encode of a value list (§4.3).  The fuel
bound strictly exceeds the recursion depth for every input. -/
def encode (values : List ValueType) : List Nat :=
  encode_body (vtl_size values + 2) values

/-! ## Signature, dispatch table (src/eth/dispatch.rs)

`Signature` and the `Error` enum live in eth module files that are not
under `src/`; they are modelled from the spec (§4.4 operations, §7 error
taxonomy).  `Table`, `HashSignature`, `NamedSignature` and `dispatch`
are embedded from src/eth/dispatch.rs. -/

/-- Modelled from the spec: Signature — ordered parameter list plus an
optional result type (§3, §4.4). -/
structure Signature where
  params : List ParamType
  result : Option ParamType

/-- HashSignature from dispatch.rs: a 32-bit selector plus a Signature. -/
structure HashSignature where
  hash : Nat
  signature : Signature

/-- Table from dispatch.rs: entries plus an optional fallback. -/
structure Table where
  inner : List HashSignature
  fallback : Option Signature

/-- Modelled from the spec: the error taxonomy of §7 (the source's
`util::Error` is not under `src/`). -/
inductive DispatchError where
  | NoLengthForSignature
  | UnknownSignature
  | NoFallback
  | DecodeError
  | EncodeError
deriving DecidableEq, Repr

/-- BigEndian::read_u32 of the first four bytes (byteorder crate). -/
def read_be32 (bytes : List Nat) : Nat :=
  (bytes.getD 0 0) <<< 24 + (bytes.getD 1 0) <<< 16 +
    (bytes.getD 2 0) <<< 8 + bytes.getD 3 0

/-- Modelled from the spec: Signature::decode_invoke (§4.4) decodes the
payload against the parameter list.  Its source file is not under
`src/`, but dispatch.rs line 69 binds its result directly as a value
list (no error propagation), so a decode failure cannot surface as a
`Result`: it aborts, which is modelled as `none` (the spec notes the
source treats decode failures on this path as panic-worthy, §7). -/
def decode_invoke (sig : Signature) (payload : List Nat) : Option (List ValueType) :=
  match decode sig.params payload with
  | .ok vals => some vals
  | .error _ => none

/-- Modelled from the spec: Signature::encode_result (§4.4): absent
declared result gives empty bytes; declared result with a value encodes
the single value as a one-element layout; declared result without a
supplied value fails. -/
def encode_result (sig : Signature) (result : Option ValueType) :
    Except DispatchError (List Nat) :=
  match sig.result, result with
  | none, _ => .ok []
  | some _, some v => .ok (encode [v])
  | some _, none => .error .EncodeError

/-- Table::hash_signature from dispatch.rs: linear scan for the selector,
`UnknownSignature` if absent. -/
def hash_signature (t : Table) (method_id : Nat) : Except DispatchError HashSignature :=
  match t.inner.find? fun x => x.hash == method_id with
  | some hs => .ok hs
  | none => .error .UnknownSignature

/-- The observable outcome of Table::dispatch: a returned byte string, a
returned error, or an abort inside decode_invoke. -/
inductive DispatchOutcome where
  | ok (bytes : List Nat)
  | err (e : DispatchError)
  | panicked
deriving DecidableEq, Repr

/-- Table::dispatch from dispatch.rs: reject payloads shorter than 4
bytes, read the big-endian selector, look it up, decode the body via
decode_invoke (whose failure is an abort), run the handler, encode the
result. -/
def dispatch (t : Table) (payload : List Nat)
    (d : Nat → List ValueType → Option ValueType) : DispatchOutcome :=
  if payload.length < 4 then .err .NoLengthForSignature
  else
    let method_id := read_be32 (payload.take 4)
    match hash_signature t method_id with
    | .error e => .err e
    | .ok hs =>
      match decode_invoke hs.signature (payload.drop 4) with
      | none => .panicked
      | some args =>
        match encode_result hs.signature (d method_id args) with
        | .error e => .err e
        | .ok bytes => .ok bytes

/-! ## Selector derivation (src/eth/dispatch.rs, NamedSignature::hash)

keccak-256 is an external collaborator of the repository (the
tiny_keccak crate; the spec lists it as "assumed available").  It is
modelled here in full: the standard Keccak-f[1600] permutation with the
original 0x01 multi-rate padding used by Keccak-256, over 64-bit lanes
modelled as `Nat` reduced mod 2^64. -/

/-- One step of the degree-8 LFSR (x^8 + x^6 + x^5 + x^4 + 1) that
generates the Keccak round-constant bits. -/
def keccak_lfsr_step (r : Nat) : Nat :=
  let r2 := r <<< 1
  if r2 &&& 0x100 ≠ 0 then (r2 ^^^ 0x71) &&& 0xFF else r2 &&& 0xFF

/-- State of the round-constant LFSR after `t` steps (rc(t) is its low
bit). -/
def keccak_lfsr : Nat → Nat
  | 0 => 1
  | t + 1 => keccak_lfsr_step (keccak_lfsr t)

/-- The 24 Keccak round constants: bit `2^j - 1` of constant `i` is
rc(j + 7*i). -/
def keccakRC : List Nat :=
  (List.range 24).map fun i =>
    (List.range 7).foldl
      (fun acc j => acc ||| (keccak_lfsr (j + 7 * i) &&& 1) <<< (2 ^ j - 1)) 0

/-- Keccak rho rotation offsets, indexed by lane index `x + 5*y`:
offset of the t-th lane of the pi walk (x,y) -> (y, 2x+3y mod 5)
starting at (1,0) is the triangular number (t+1)(t+2)/2 mod 64, with
lane (0,0) fixed at 0. -/
def keccakRHO : List Nat :=
  ((List.range 24).foldl
    (fun st t =>
      match st with
      | (tab, x, y) =>
        (tab.set (x + 5 * y) (((t + 1) * (t + 2) / 2) % 64), y, (2 * x + 3 * y) % 5))
    (List.replicate 25 0, 1, 0)).1

/-- Left rotation of a 64-bit lane (`x < 2^64`). -/
def rotl64 (x n : Nat) : Nat := ((x <<< n) % 2 ^ 64) ||| (x >>> (64 - n))

/-- One Keccak-f round: theta, rho+pi, chi, iota.  Lanes are a flat list
indexed by `x + 5*y`. -/
def keccak_round (a : List Nat) (rc : Nat) : List Nat :=
  let c := (List.range 5).map fun x =>
    (((a.getD x 0 ^^^ a.getD (x + 5) 0) ^^^ a.getD (x + 10) 0) ^^^
      a.getD (x + 15) 0) ^^^ a.getD (x + 20) 0
  let d := (List.range 5).map fun x =>
    c.getD ((x + 4) % 5) 0 ^^^ rotl64 (c.getD ((x + 1) % 5) 0) 1
  let a1 := (List.range 25).map fun i => a.getD i 0 ^^^ d.getD (i % 5) 0
  let b := (List.range 25).map fun j =>
    let y := j % 5
    let t := j / 5
    let x := (3 * (t + 2 * y)) % 5
    rotl64 (a1.getD (x + 5 * y) 0) (keccakRHO.getD (x + 5 * y) 0)
  let a2 := (List.range 25).map fun i =>
    let x := i % 5
    let y := i / 5
    b.getD i 0 ^^^
      ((b.getD ((x + 1) % 5 + 5 * y) 0 ^^^ (2 ^ 64 - 1)) &&&
        b.getD ((x + 2) % 5 + 5 * y) 0)
  (List.range 25).map fun i => if i = 0 then a2.getD 0 0 ^^^ rc else a2.getD i 0

/-- The full Keccak-f[1600] permutation (24 rounds). -/
def keccak_f (a : List Nat) : List Nat := keccakRC.foldl keccak_round a

/-- Little-endian 64-bit lane `j` of a 136-byte rate block. -/
def lane_of (block : List Nat) (j : Nat) : Nat :=
  (List.range 8).foldl (fun acc k => acc ||| (block.getD (8 * j + k) 0) <<< (8 * k)) 0

/-- Absorb one 136-byte block into the state and permute. -/
def absorb_block (state block : List Nat) : List Nat :=
  keccak_f ((List.range 25).map fun j =>
    if j < 17 then state.getD j 0 ^^^ lane_of block j else state.getD j 0)

/-- Original Keccak multi-rate padding with delimiter 0x01 (rate 136). -/
def keccak_pad (msg : List Nat) : List Nat :=
  let padlen := 136 - msg.length % 136
  if padlen = 1 then msg ++ [0x81]
  else msg ++ [0x01] ++ List.replicate (padlen - 2) 0 ++ [0x80]

/-- Modelled from the spec: keccak-256 of a byte string, as provided by
the external tiny_keccak crate (an "assumed available" collaborator). -/
def keccak256 (msg : List Nat) : List Nat :=
  let padded := keccak_pad msg
  let blocks := (List.range (padded.length / 136)).map fun i =>
    (padded.drop (136 * i)).take 136
  let final := blocks.foldl absorb_block (List.replicate 25 0)
  (List.range 32).map fun i => (final.getD (i / 8) 0 >>> (8 * (i % 8))) % 256

/-- Modelled from the spec: ParamType::to_member, the canonical member
string of each type (§4.5 table; the eth module file declaring it is not
under `src/`). -/
def to_member : ParamType → String
  | .U32 => "uint32"
  | .I32 => "int32"
  | .U64 => "uint64"
  | .I64 => "int64"
  | .U256 => "uint256"
  | .H256 => "uint256"
  | .Address => "address"
  | .Bool => "bool"
  | .Bytes => "bytes"
  | .String => "string"
  | .Array t => to_member t ++ "[]"

/-- Comma join as done by the member loop of NamedSignature::hash
(dispatch.rs): a comma after every member except the last. -/
def join_comma : List String → String
  | [] => ""
  | [s] => s
  | s :: rest => s ++ "," ++ join_comma rest

/-- The canonical signature string built by NamedSignature::hash
(dispatch.rs lines 130-137): name, open paren, comma-joined members,
close paren. -/
def canonical_signature (name : String) (params : List ParamType) : String :=
  name ++ "(" ++ join_comma (params.map to_member) ++ ")"

/-- UTF-8/ASCII bytes of a canonical signature string (all canonical
strings are ASCII, so code points are bytes). -/
def str_bytes (s : String) : List Nat := s.data.map Char.toNat

/-- NamedSignature::hash (dispatch.rs): keccak-256 of the canonical
signature string. -/
def named_signature_hash (name : String) (sig : Signature) : List Nat :=
  keccak256 (str_bytes (canonical_signature name sig.params))

/-- The selector of a NamedSignature: From NamedSignature for
HashSignature (dispatch.rs lines 30-40) reads the first four bytes of
the hash as a big-endian u32. -/
def named_signature_selector (name : String) (sig : Signature) : Nat :=
  read_be32 (named_signature_hash name sig)

/-- The big-endian numeric value of a byte list (spec-side notion used to
state that decoded unsigned scalars equal the big-endian value of their
low bytes). -/
def be_value (bs : List Nat) : Nat := bs.foldl (fun acc b => acc * 256 + b) 0

/-! ## Helper lemmas -/

lemma slice_data_of_length_32 (data : List Nat) (h : data.length = 32) :
    slice_data data = .ok [data] := by
  unfold slice_data
  rw [h]
  norm_num [List.range_succ]
  exact h.le

lemma decode_loop_length (types : List ParamType) :
    ∀ (slices : List Word) (offset : Nat) (vals : List ValueType),
      decode_loop types slices offset = .ok vals → vals.length = types.length := by
  induction types with
  | nil =>
    intro slices offset vals h
    unfold decode_loop at h
    cases h
    rfl
  | cons p ps ih =>
    intro slices offset vals h
    unfold decode_loop at h
    simp only [Bind.bind] at h
    cases hd : decode_param p slices offset with
    | error e => rw [hd] at h; simp [Except.bind] at h
    | ok r =>
      rw [hd] at h
      simp only [Except.bind] at h
      cases hl : decode_loop ps slices r.new_offset with
      | error e => rw [hl] at h; simp [Except.bind] at h
      | ok rest =>
        rw [hl] at h
        simp only [Except.bind] at h
        injection h with h2
        subst h2
        simp [ih slices r.new_offset rest hl]

lemma wbyte_drop (w : List Nat) (n k : Nat) : wbyte (w.drop n) k = wbyte w (n + k) := by
  simp [wbyte, List.getD, List.getElem?_drop]

lemma be_value_four (L : List Nat) (h : L.length = 4) :
    be_value L = wbyte L 0 <<< 24 + wbyte L 1 <<< 16 + wbyte L 2 <<< 8 + wbyte L 3 := by
  match L, h with
  | [a, b, c, d], _ =>
    simp [be_value, wbyte, Nat.shiftLeft_eq]
    ring

lemma be_value_eight (L : List Nat) (h : L.length = 8) :
    be_value L = wbyte L 0 <<< 56 + wbyte L 1 <<< 48 + wbyte L 2 <<< 40 +
      wbyte L 3 <<< 32 + wbyte L 4 <<< 24 + wbyte L 5 <<< 16 +
      wbyte L 6 <<< 8 + wbyte L 7 := by
  match L, h with
  | [a, b, c, d, e, f, g, i], _ =>
    simp [be_value, wbyte, Nat.shiftLeft_eq]
    ring

/-! ## Claims -/

/-- C2: decoding a 32-byte word under `ParamType::H256` succeeds and
yields the `ValueType::U256` variant carrying the raw 32 bytes (the
source's `H256` arm constructs `ValueType::U256`). -/
theorem decode_h256_yields_u256_variant (data : List Nat) (h : data.length = 32) :
    decode [ParamType.H256] data = .ok [.U256 data] := by
  unfold decode
  rw [slice_data_of_length_32 data h]
  rfl

/-- Witness for C2 at a concrete 32-byte word. -/
theorem decode_h256_yields_u256_variant_witness :
    (List.replicate 32 (0x11 : Nat)).length = 32 ∧
      decode [ParamType.H256] (List.replicate 32 (0x11 : Nat)) =
        .ok [.U256 (List.replicate 32 (0x11 : Nat))] :=
  ⟨by decide, decode_h256_yields_u256_variant (List.replicate 32 0x11) (by decide)⟩

/-- C3 counterexample: a Bool word whose last byte is 0x02 decodes
successfully to `Bool(false)` — it is not rejected as the claim states. -/
theorem bool_word_0x02_not_rejected :
    decode [ParamType.Bool] (List.replicate 31 0 ++ [2]) = .ok [.Bool false] := by rfl

/-- C3 amended: for every 32-byte word whose first 31 bytes are zero,
decoding under `ParamType::Bool` always succeeds, yielding `Bool(b = 1)`
for last byte `b`; a last byte other than 0 or 1 yields `Bool(false)`,
not an error. -/
theorem decode_bool_succeeds_on_any_last_byte (b : Nat) :
    decode [ParamType.Bool] (List.replicate 31 0 ++ [b]) =
      .ok [.Bool (decide (b = 1))] := by
  have h32 : (List.replicate 31 (0 : Nat) ++ [b]).length = 32 := by simp
  unfold decode
  rw [slice_data_of_length_32 _ h32]
  show decode_loop [ParamType.Bool] [List.replicate 31 0 ++ [b]] 0 = _
  simp only [List.replicate_succ, List.replicate_zero]
  rfl

/-- C6 counterexample: a non-empty input (32 zero bytes) against the
empty ParamType list decodes successfully to the empty value list — it is
not an error as the claim states. -/
theorem empty_params_nonempty_input_ok :
    decode [] (List.replicate 32 0) = .ok [] := by rfl

/-- C6 amended: against the empty ParamType list, decoding errors exactly
when the input length is not a multiple of 32; otherwise (including
non-empty inputs) it succeeds with the empty value list. -/
theorem decode_empty_params (data : List Nat) :
    decode [] data = if data.length % 32 = 0 then .ok [] else .error () := by
  unfold decode slice_data
  by_cases h : data.length % 32 = 0 <;>
    simp [h, Bind.bind, Except.bind, decode_loop]

/-- C9: the conversions of value_type.rs are asymmetric at U256 — a
native 256-bit integer converts into the `H256` variant, while the
reverse conversion accepts only the `U256` variant and panics (modelled
as `none`) on everything else; so the round trip always panics. -/
theorem u256_conversion_asymmetric (v : List Nat) :
    valueTypeOfU256 v = .H256 v ∧ u256OfValueType (valueTypeOfU256 v) = none :=
  ⟨rfl, rfl⟩

/-- C10: whenever decode succeeds, the value list has exactly one entry
per ParamType, in order. -/
theorem decode_length_eq_types_length (types : List ParamType) (data : List Nat)
    (vals : List ValueType) (h : decode types data = .ok vals) :
    vals.length = types.length := by
  unfold decode at h
  cases hs : slice_data data with
  | error e => rw [hs] at h; exact absurd h (by simp [Bind.bind, Except.bind])
  | ok slices =>
    rw [hs] at h
    simp only [Bind.bind, Except.bind] at h
    exact decode_loop_length types slices 0 vals h

/-- Witness for C10 at a concrete decode. -/
theorem decode_length_eq_types_length_witness :
    decode [ParamType.Bool] (List.replicate 31 0 ++ [1]) = .ok [.Bool true] ∧
      ([ValueType.Bool true] : List ValueType).length = [ParamType.Bool].length :=
  ⟨by rfl, decode_length_eq_types_length [ParamType.Bool]
    (List.replicate 31 0 ++ [1]) [.Bool true] (by rfl)⟩

/-- C1: the claimed round trip `decode(P, encode(V)) = V` FAILS on the
code for the two cases the claim singles out.  A negative I32 encodes to
the 0xFF-sign-extended word (pad_i32), but `as_i32` negates the
reinterpreted low word, so `I32(-1)` decodes back to `I32(1)`; and an
`H256` value decodes back as the `U256` variant, not `H256`.  This
theorem evaluates the code at both failing inputs. -/
theorem roundtrip_fails_for_neg_i32_and_h256 :
    decode [ParamType.I32] (encode [ValueType.I32 (-1)]) = .ok [.I32 1] ∧
    decode [ParamType.H256] (encode [ValueType.H256 (List.replicate 32 0x11)]) =
      .ok [.U256 (List.replicate 32 0x11)] := by
  constructor
  · simp only [encode, vtl_size, vt_size]; rfl
  · simp only [encode, vtl_size, vt_size]; rfl

/-- C4: signed-word decoding diverges from the claimed two's-complement
reading.  The all-0xFF word (the sign extension of -1) is accepted but
decodes to `1` under I32 and I64 (the code negates the reinterpreted low
word); a word with first byte 0x80 (not 0xFF) is accepted rather than
rejected; and the non-sign-extended word `0^28 ‖ 80 00 00 00` is
accepted as `-2^31` instead of being rejected.  This theorem evaluates
the code at these failing inputs. -/
theorem signed_decode_diverges_from_twos_complement :
    decode [ParamType.I32] (List.replicate 32 0xff) = .ok [.I32 1] ∧
    decode [ParamType.I64] (List.replicate 32 0xff) = .ok [.I64 1] ∧
    decode [ParamType.I32] (0x80 :: (List.replicate 27 0xff ++ [0, 0, 0, 5])) =
      .ok [.I32 (-5)] ∧
    decode [ParamType.I32] (List.replicate 28 0 ++ [0x80, 0, 0, 0]) =
      .ok [.I32 (-(2 ^ 31))] :=
  ⟨by rfl, by rfl, by rfl, by rfl⟩

/-- C5 amended: dispatch returns `NoLengthForSignature` for payloads
shorter than 4 bytes and `UnknownSignature` for unmatched selectors, but
when the selector matches and the body is malformed the decode failure
ABORTS inside decode_invoke (modelled as the `panicked` outcome) instead
of being propagated to the caller as an error value. -/
theorem dispatch_error_paths (t : Table) (payload : List Nat)
    (d : Nat → List ValueType → Option ValueType) :
    (payload.length < 4 → dispatch t payload d = .err .NoLengthForSignature) ∧
    (4 ≤ payload.length →
      hash_signature t (read_be32 (payload.take 4)) = .error .UnknownSignature →
      dispatch t payload d = .err .UnknownSignature) ∧
    (∀ hs, 4 ≤ payload.length →
      hash_signature t (read_be32 (payload.take 4)) = .ok hs →
      decode hs.signature.params (payload.drop 4) = .error () →
      dispatch t payload d = .panicked) := by
  refine ⟨fun h => ?_, fun h4 hlk => ?_, fun hs h4 hlk hdec => ?_⟩
  · unfold dispatch
    rw [if_pos h]
  · unfold dispatch
    rw [if_neg (by omega)]
    simp only [hlk]
  · unfold dispatch
    rw [if_neg (by omega)]
    simp only [hlk]
    unfold decode_invoke
    rw [hdec]

/-- C5 counterexample: a concrete table and payload where the selector
matches but the body is malformed (length 1, not a multiple of 32); the
dispatch outcome is an abort, not a returned codec error. -/
theorem dispatch_decode_failure_panics :
    dispatch ⟨[⟨5, ⟨[ParamType.U32], none⟩⟩], none⟩ [0, 0, 0, 5, 1]
      (fun _ _ => none) = .panicked ∧
    dispatch ⟨[⟨5, ⟨[ParamType.U32], none⟩⟩], none⟩ [0, 0, 0, 5, 1]
      (fun _ _ => none) ≠ .err .DecodeError :=
  ⟨by rfl, by decide⟩

/-- Witness for C5 at concrete inputs, one per error path. -/
theorem dispatch_error_paths_witness :
    dispatch ⟨[⟨5, ⟨[ParamType.U32], none⟩⟩], none⟩ [9]
      (fun _ _ => none) = .err .NoLengthForSignature ∧
    dispatch ⟨[⟨5, ⟨[ParamType.U32], none⟩⟩], none⟩ [9, 9, 9, 9]
      (fun _ _ => none) = .err .UnknownSignature ∧
    dispatch ⟨[⟨5, ⟨[ParamType.U32], none⟩⟩], none⟩ [0, 0, 0, 5, 1, 2]
      (fun _ _ => none) = .panicked :=
  ⟨(dispatch_error_paths _ _ _).1 (by decide),
   (dispatch_error_paths _ _ _).2.1 (by decide) (by rfl),
   (dispatch_error_paths _ _ _).2.2 ⟨5, ⟨[ParamType.U32], none⟩⟩
     (by decide) (by rfl) (by rfl)⟩

/-- C8: the decoder rejects any input whose length is not a multiple of
32 (whatever the types); `as_u32` errors exactly when the upper 28 bytes
are not all zero, `as_u64` exactly when the upper 24 are not, and on
success the value is the big-endian value of the low 4 or 8 bytes. -/
theorem decoder_rejects_misaligned_and_nonzero_high (w : Word)
    (hw : w.length = 32) :
    (∀ (types : List ParamType) (data : List Nat),
        data.length % 32 ≠ 0 → decode types data = .error ()) ∧
    (as_u32 w = .error () ↔ ((w.take 28).all fun x => x = 0) = false) ∧
    (((w.take 28).all fun x => x = 0) = true → as_u32 w = .ok (be_value (w.drop 28))) ∧
    (as_u64 w = .error () ↔ ((w.take 24).all fun x => x = 0) = false) ∧
    (((w.take 24).all fun x => x = 0) = true → as_u64 w = .ok (be_value (w.drop 24))) := by
  refine ⟨fun types data h => ?_, ?_, fun hc => ?_, ?_, fun hc => ?_⟩
  · unfold decode slice_data
    rw [if_pos h]
    rfl
  · unfold as_u32
    by_cases hc : ((w.take 28).all fun x => x = 0) = true
    · rw [if_neg (by simp [hc])]
      simp [hc]
    · rw [if_pos (by simp_all)]
      simp_all
  · have hl : (w.drop 28).length = 4 := by simp [List.length_drop, hw]
    unfold as_u32
    rw [if_neg (by simp [hc]), be_value_four _ hl,
      wbyte_drop, wbyte_drop, wbyte_drop, wbyte_drop]
  · unfold as_u64
    by_cases hc : ((w.take 24).all fun x => x = 0) = true
    · rw [if_neg (by simp [hc])]
      simp [hc]
    · rw [if_pos (by simp_all)]
      simp_all
  · have hl : (w.drop 24).length = 8 := by simp [List.length_drop, hw]
    unfold as_u64
    rw [if_neg (by simp [hc]), be_value_eight _ hl,
      wbyte_drop, wbyte_drop, wbyte_drop, wbyte_drop,
      wbyte_drop, wbyte_drop, wbyte_drop, wbyte_drop]

/-- Witness for C8 at concrete words. -/
theorem decoder_rejects_misaligned_and_nonzero_high_witness :
    decode [ParamType.U32] [1, 2, 3] = .error () ∧
    as_u32 (1 :: List.replicate 31 0) = .error () ∧
    as_u32 (List.replicate 28 0 ++ [0, 0, 1, 2]) = .ok (be_value [0, 0, 1, 2]) ∧
    as_u64 (List.replicate 24 0 ++ [0, 0, 0, 0, 0, 0, 1, 2]) =
      .ok (be_value [0, 0, 0, 0, 0, 0, 1, 2]) :=
  ⟨(decoder_rejects_misaligned_and_nonzero_high (List.replicate 32 0)
      (by decide)).1 _ _ (by decide),
   ((decoder_rejects_misaligned_and_nonzero_high (1 :: List.replicate 31 0)
      (by decide)).2.1).mpr (by decide),
   (decoder_rejects_misaligned_and_nonzero_high (List.replicate 28 0 ++ [0, 0, 1, 2])
      (by decide)).2.2.1 (by decide),
   (decoder_rejects_misaligned_and_nonzero_high
      (List.replicate 24 0 ++ [0, 0, 0, 0, 0, 0, 1, 2]) (by decide)).2.2.2.2 (by decide)⟩

set_option maxRecDepth 100000 in
/-- C7: the selector of a NamedSignature is the big-endian 32-bit read
of the first four bytes of keccak-256 of the canonical signature string;
concretely, baz(uint32,bool) has selector 0xCDCD77C0 and
sam(bytes,bool,uint256[]) has selector 0xA5643BF2. -/
theorem selector_is_keccak_of_canonical_string :
    (∀ (name : String) (sig : Signature),
        named_signature_selector name sig =
          read_be32 (keccak256 (str_bytes (canonical_signature name sig.params)))) ∧
    named_signature_selector "baz" ⟨[.U32, .Bool], none⟩ = 0xCDCD77C0 ∧
    named_signature_selector "sam" ⟨[.Bytes, .Bool, .Array .U256], none⟩ = 0xA5643BF2 :=
  ⟨fun _ _ => rfl, by rfl, by rfl⟩
